import Mathlib

/-!
Verification development for the StarDict dictionary import subsystem of the
vsparishad/vangmayam-mvp repository (src/backend/app/services/stardict_service.py).

The Python code is shallowly embedded: Python str values become List Char
(sequences of Unicode code points), bytes become List Nat (values < 256),
Python dicts of the .ifo parser become insertion-ordered association lists,
the SQLAlchemy session becomes an explicit Store value threaded through the
pipeline, and fallible code returns Except.  File I/O and gzip decompression
are outside the model: every function takes the file contents (lines or raw
bytes) that the Python code obtains from disk.
-/

deriving instance DecidableEq for Except

namespace StarDict

/-- Python str values are sequences of Unicode code points. -/
abbrev PyStr := List Char

/-- Shorthand for writing PyStr literals. -/
def pl (s : String) : PyStr := s.toList

/-- The set of characters Python's str.strip(), str.isspace() and the re
module's whitespace class agree on (CPython's Py_UNICODE_ISSPACE). -/
def pyIsSpace (c : Char) : Bool :=
  c.toNat = 0x09 || c.toNat = 0x0A || c.toNat = 0x0B || c.toNat = 0x0C ||
  c.toNat = 0x0D || (0x1C ≤ c.toNat && c.toNat ≤ 0x1F) || c.toNat = 0x20 ||
  c.toNat = 0x85 || c.toNat = 0xA0 || c.toNat = 0x1680 ||
  (0x2000 ≤ c.toNat && c.toNat ≤ 0x200A) || c.toNat = 0x2028 ||
  c.toNat = 0x2029 || c.toNat = 0x202F || c.toNat = 0x205F || c.toNat = 0x3000

/-- Python str.strip() with no arguments: drop whitespace from both ends. -/
def pyStrip (s : PyStr) : PyStr :=
  ((s.dropWhile pyIsSpace).reverse.dropWhile pyIsSpace).reverse

/-- Python str.lower(), restricted to ASCII letters and the uppercase forms of
the IAST diacritics this service distinguishes (all other characters that can
reach the gender heuristic are fixed points of CPython's lowercasing). -/
def pyLowerChar (c : Char) : Char :=
  if 'A' ≤ c && c ≤ 'Z' then Char.ofNat (c.toNat + 32)
  else if c = 'Ā' then 'ā' else if c = 'Ī' then 'ī' else if c = 'Ū' then 'ū'
  else if c = 'Ṛ' then 'ṛ' else if c = 'Ṝ' then 'ṝ' else if c = 'Ḷ' then 'ḷ'
  else if c = 'Ḹ' then 'ḹ' else if c = 'Ē' then 'ē' else if c = 'Ō' then 'ō'
  else if c = 'Ṃ' then 'ṃ' else if c = 'Ḥ' then 'ḥ' else if c = 'Ṅ' then 'ṅ'
  else if c = 'Ñ' then 'ñ' else if c = 'Ṭ' then 'ṭ' else if c = 'Ḍ' then 'ḍ'
  else if c = 'Ṇ' then 'ṇ' else if c = 'Ś' then 'ś' else if c = 'Ṣ' then 'ṣ'
  else c

/-- Python str.startswith for the .ifo signature check. -/
def pyStartsWith (p s : PyStr) : Bool :=
  match p, s with
  | [], _ => true
  | _ :: _, [] => false
  | a :: p, b :: s => a = b && pyStartsWith p s

/-- Python str.endswith(tuple): true when any of the given suffixes matches. -/
def pyEndsWithAny (s : PyStr) (suffixes : List PyStr) : Bool :=
  suffixes.any (fun suf => suf.isSuffixOf s)

/-! ## UTF-8 decoding

bytes.decode('utf-8') in its strict form (used on .idx words, where a failure
is fatal) and with errors='ignore' (used on definition data, where invalid
byte sequences are dropped).  The fuel argument bounds the recursion; every
call consumes at least one byte, so fuel equal to the length of the input is
always sufficient. -/

/-- UTF-8 continuation byte test (10xxxxxx). -/
def isCont (b : Nat) : Bool := 0x80 ≤ b && b < 0xC0

/-- Decode a UTF-8 byte sequence.  With strict = true any invalid or truncated
sequence is an error (CPython raises UnicodeDecodeError); with strict = false
the invalid maximal subpart is skipped, matching errors='ignore'. -/
def utf8DecAux (strict : Bool) : Nat → List Nat → Except Unit (List Char)
  | _, [] => .ok []
  | 0, _ :: _ => .ok []
  | fuel+1, b1 :: rest =>
    if b1 < 0x80 then
      (utf8DecAux strict fuel rest).map (Char.ofNat b1 :: ·)
    else if 0xC2 ≤ b1 && b1 ≤ 0xDF then
      match rest with
      | [] => if strict then .error () else .ok []
      | b2 :: rest2 =>
        if isCont b2 then
          (utf8DecAux strict fuel rest2).map
            (Char.ofNat ((b1 - 0xC0) * 0x40 + (b2 - 0x80)) :: ·)
        else if strict then .error () else utf8DecAux strict fuel rest
    else if 0xE0 ≤ b1 && b1 ≤ 0xEF then
      let lo := if b1 = 0xE0 then 0xA0 else 0x80
      let hi := if b1 = 0xED then 0x9F else 0xBF
      match rest with
      | [] => if strict then .error () else .ok []
      | b2 :: rest2 =>
        if lo ≤ b2 && b2 ≤ hi then
          match rest2 with
          | [] => if strict then .error () else .ok []
          | b3 :: rest3 =>
            if isCont b3 then
              (utf8DecAux strict fuel rest3).map
                (Char.ofNat ((b1 - 0xE0) * 0x1000 + (b2 - 0x80) * 0x40 + (b3 - 0x80)) :: ·)
            else if strict then .error () else utf8DecAux strict fuel rest2
        else if strict then .error () else utf8DecAux strict fuel rest
    else if 0xF0 ≤ b1 && b1 ≤ 0xF4 then
      let lo := if b1 = 0xF0 then 0x90 else 0x80
      let hi := if b1 = 0xF4 then 0x8F else 0xBF
      match rest with
      | [] => if strict then .error () else .ok []
      | b2 :: rest2 =>
        if lo ≤ b2 && b2 ≤ hi then
          match rest2 with
          | [] => if strict then .error () else .ok []
          | b3 :: rest3 =>
            if isCont b3 then
              match rest3 with
              | [] => if strict then .error () else .ok []
              | b4 :: rest4 =>
                if isCont b4 then
                  (utf8DecAux strict fuel rest4).map
                    (Char.ofNat ((b1 - 0xF0) * 0x40000 + (b2 - 0x80) * 0x1000 +
                      (b3 - 0x80) * 0x40 + (b4 - 0x80)) :: ·)
                else if strict then .error () else utf8DecAux strict fuel rest3
            else if strict then .error () else utf8DecAux strict fuel rest2
        else if strict then .error () else utf8DecAux strict fuel rest
    else
      if strict then .error () else utf8DecAux strict fuel rest

/-- bytes.decode('utf-8'): strict decoding, errors are fatal. -/
def utf8DecodeStrict (data : List Nat) : Except Unit (List Char) :=
  utf8DecAux true data.length data

/-- bytes.decode('utf-8', errors='ignore'): invalid sequences are dropped. -/
def utf8DecodeIgnore (data : List Nat) : List Char :=
  match utf8DecAux false data.length data with
  | .ok s => s
  | .error _ => []

/-! ## HeaderParser: StarDictParser.parse_ifo_file

The .ifo file is modelled as the list of its lines (the result of
f.readlines(), with or without trailing newlines, which line.strip()
removes).  The parsed metadata is a Python dict: an insertion-ordered
association list whose values are strings or (after numeric coercion)
integers. -/

/-- A value in the parsed .ifo dictionary: a raw string, or an integer after
the wordcount/idxfilesize coercion. -/
inductive IfoVal where
  | str (v : PyStr)
  | int (n : Int)
deriving DecidableEq

/-- The parsed .ifo metadata: a Python dict as an insertion-ordered
association list. -/
abbrev InfoData := List (PyStr × IfoVal)

/-- Python dict assignment d[k] = v: replace in place if the key exists,
otherwise append. -/
def dictSet (d : InfoData) (k : PyStr) (v : IfoVal) : InfoData :=
  match d with
  | [] => [(k, v)]
  | (k', v') :: rest =>
    if k' = k then (k, v) :: rest else (k', v') :: dictSet rest k v

/-- Python dict lookup d[k] (or d.get(k)). -/
def dictFind (d : InfoData) (k : PyStr) : Option IfoVal :=
  match d with
  | [] => none
  | (k', v') :: rest => if k' = k then some v' else dictFind rest k

/-- Python d.get(k, default) for string values, as used for
info_data.get('bookname', 'Unknown'). -/
def dictGetStr (d : InfoData) (k : PyStr) (dflt : PyStr) : PyStr :=
  match dictFind d k with
  | some (.str v) => v
  | some (.int _) => dflt
  | none => dflt

/-- line.split('=', 1): split at the first '=' if present; values may
themselves contain further '=' characters. -/
def splitFirstEq (s : PyStr) : Option (PyStr × PyStr) :=
  match s with
  | [] => none
  | c :: rest =>
    if c = '=' then some ([], rest)
    else (splitFirstEq rest).map (fun p => (c :: p.1, p.2))

/-- Python int(str): optional whitespace, an optional sign, then at least one
decimal digit (the underscore-separator extension of CPython is not used by
any .ifo file this service reads and is not modelled). -/
def pyInt (s : PyStr) : Option Int :=
  let t := pyStrip s
  let (neg, digits) :=
    match t with
    | '-' :: rest => (true, rest)
    | '+' :: rest => (false, rest)
    | _ => (false, t)
  if digits = [] || !digits.all (fun c => '0' ≤ c && c ≤ '9') then none
  else
    let n := digits.foldl (fun acc c => acc * 10 + (c.toNat - '0'.toNat)) 0
    some (if neg then -(n : Int) else (n : Int))

/-- The signature the first .ifo line must start with.  The apostrophe is
written as Char.ofNat 39. -/
def ifoSignature : PyStr :=
  ['S', 't', 'a', 'r', 'D', 'i', 'c', 't', Char.ofNat 39, 's', ' ',
   'd', 'i', 'c', 't', ' ', 'i', 'f', 'o', ' ', 'f', 'i', 'l', 'e']

/-- The ways parse_ifo_file can raise: IndexError on an empty file
(lines[0]), the invalid-format ValueError, the missing-field ValueError, and
the ValueError raised by int() on a malformed numeric field. -/
inductive IfoError where
  | indexError
  | invalidFormat
  | missingField
  | malformedValue
deriving DecidableEq

/-- The required .ifo keys, in the order the Python code checks them. -/
def requiredFields : List PyStr :=
  [pl "version", pl "bookname", pl "wordcount", pl "idxfilesize"]

/-- The pure core of StarDictParser.parse_ifo_file: build the info_data dict
from the file's lines.  Mirrors the Python line by line: signature check on
lines[0], key=value parsing of the remaining lines, required-field check,
then integer coercion of wordcount and idxfilesize. -/
def parse_ifo_core (lines : List PyStr) : Except IfoError InfoData :=
  match lines with
  | [] => .error .indexError
  | first :: rest =>
    if !pyStartsWith ifoSignature (pyStrip first) then .error .invalidFormat
    else
      let info := rest.foldl
        (fun d line =>
          match splitFirstEq (pyStrip line) with
          | some (k, v) => dictSet d k (.str v)
          | none => d) []
      if requiredFields.any (fun f => (dictFind info f).isNone) then
        .error .missingField
      else
        match dictFind info (pl "wordcount") with
        | some (.str wc) =>
          match pyInt wc with
          | none => .error .malformedValue
          | some wcn =>
            match dictFind info (pl "idxfilesize") with
            | some (.str ifs) =>
              match pyInt ifs with
              | none => .error .malformedValue
              | some ifsn =>
                .ok (dictSet (dictSet info (pl "wordcount") (.int wcn))
                      (pl "idxfilesize") (.int ifsn))
            | _ => .error .malformedValue
        | _ => .error .malformedValue

/-- One parsed .idx record: the decoded word and the 32-bit offset and size
of its definition in the .dict blob. -/
abbrev IdxEntry := PyStr × Nat × Nat

/-- The mutable fields of the StarDictParser object (self.info_data,
self.index_data, self.dict_data, self.entries). -/
structure ParserState where
  info_data : InfoData
  index_data : List IdxEntry
  dict_data : List Nat
deriving DecidableEq

/-- StarDictParser.parse_ifo_file as the Python method behaves: the returned
dict is computed from the file's lines alone, and is then also stored into
the parser object's info_data field (self.info_data = info_data). -/
def parse_ifo_file (s : ParserState) (lines : List PyStr) :
    Except IfoError (ParserState × InfoData) :=
  (parse_ifo_core lines).map (fun d => ({ s with info_data := d }, d))

/-! ## IndexParser: StarDictParser.parse_idx_file -/

/-- data.find(0) from the front of the remaining bytes: the word bytes before
the first NUL and the bytes after it, or none when no NUL exists. -/
def splitAtNul (data : List Nat) : Option (List Nat × List Nat) :=
  match data with
  | [] => none
  | b :: rest =>
    if b = 0 then some ([], rest)
    else (splitAtNul rest).map (fun p => (b :: p.1, p.2))

/-- struct.unpack('>I', _) on four bytes: big-endian unsigned 32-bit. -/
def be32 (l : List Nat) : Nat :=
  l.foldl (fun acc b => acc * 256 + b) 0

/-- The scan loop of parse_idx_file on the remaining byte suffix: find the
NUL terminating the next word, decode the word strictly (a decode failure is
a hard failure for the whole archive), and if fewer than 8 bytes remain
after the NUL (null_pos + 8 >= len(data)) stop and keep the entries
collected so far; otherwise read two big-endian 32-bit integers and
continue past them.  Each iteration consumes at least nine bytes, so fuel
equal to the length of the data is always sufficient. -/
def parseIdxAux : Nat → List Nat → Except Unit (List IdxEntry)
  | _, [] => .ok []
  | 0, _ :: _ => .ok []
  | fuel+1, data@(_ :: _) =>
    match splitAtNul data with
    | none => .ok []
    | some (wordBytes, rest) =>
      match utf8DecodeStrict wordBytes with
      | .error _ => .error ()
      | .ok word =>
        if rest.length < 8 then .ok []
        else
          let dataOffset := be32 (rest.take 4)
          let dataSize := be32 ((rest.drop 4).take 4)
          (parseIdxAux fuel (rest.drop 8)).map
            (fun es => (word, dataOffset, dataSize) :: es)

/-- StarDictParser.parse_idx_file on the (already decompressed) index bytes. -/
def parse_idx_file (data : List Nat) : Except Unit (List IdxEntry) :=
  parseIdxAux data.length data

/-! ## DefinitionExtractor: StarDictParser._parse_definition_data and
StarDictParser.extract_definitions -/

/-- The character class of re.sub(r'[\x00-\x1f\x7f-\x9f]', ' ', _): ASCII
control characters and the C1 range. -/
def isCtrlChar (c : Char) : Bool :=
  c.toNat ≤ 0x1F || (0x7F ≤ c.toNat && c.toNat ≤ 0x9F)

/-- re.sub(r'\s+', ' ', _): replace every maximal run of whitespace with a
single space.  The flag records whether the previous character was part of a
whitespace run. -/
def collapseWsAux : List Char → Bool → List Char
  | [], _ => []
  | c :: rest, prevWs =>
    if pyIsSpace c then
      if prevWs then collapseWsAux rest true
      else ' ' :: collapseWsAux rest true
    else c :: collapseWsAux rest false

/-- re.sub(r'\s+', ' ', s). -/
def collapseWs (s : List Char) : List Char := collapseWsAux s false

/-- StarDictParser._parse_definition_data: decode the definition bytes with
errors='ignore', then strip, then replace control characters with spaces,
then collapse whitespace runs.  Note the order: the strip happens before the
control-character substitution.  None of these steps can raise, so the
except-branch of the Python method (decode with errors='replace') is dead
code and is not part of the value. -/
def parse_definition_data (data : List Nat) : PyStr :=
  let definition := utf8DecodeIgnore data
  let definition := pyStrip definition
  let definition := definition.map (fun c => if isCtrlChar c then ' ' else c)
  let definition := collapseWs definition
  definition

/-- One extracted dictionary entry, as built by extract_definitions. -/
structure Entry where
  word : PyStr
  definition : PyStr
  source_dict : PyStr
  raw_data : List Nat
deriving DecidableEq

/-- The loop body of extract_definitions over the index entries: an entry
whose offset + size exceeds the blob length is skipped (with only a log
warning) and every other entry is sliced out of the blob and cleaned. -/
def extractLoop (dictData : List Nat) (bookname : PyStr) :
    List IdxEntry → List Entry
  | [] => []
  | (word, offset, size) :: rest =>
    if dictData.length < offset + size then
      extractLoop dictData bookname rest
    else
      let definitionData := (dictData.drop offset).take size
      { word := word,
        definition := parse_definition_data definitionData,
        source_dict := bookname,
        raw_data := definitionData } :: extractLoop dictData bookname rest

/-- StarDictParser.extract_definitions: raises when index or dict data is
not loaded (which includes the empty index and the empty blob, since Python
treats empty containers as falsy), otherwise runs the extraction loop. -/
def extract_definitions (info : InfoData) (index : List IdxEntry)
    (dictData : List Nat) : Except Unit (List Entry) :=
  if index = [] || dictData = [] then .error ()
  else .ok (extractLoop dictData (dictGetStr info (pl "bookname") (pl "Unknown")) index)

/-! ## WordClassifier: StarDictImportService._analyze_word -/

/-- The gender values the heuristic can assign. -/
inductive Gender where
  | masculine
  | feminine
  | neuter
deriving DecidableEq

/-- The word_info dict built by _analyze_word.  The pos key is never written
by any code path, so part_of_speech is always none downstream. -/
structure WordInfo where
  devanagari : Option PyStr
  iast : Option PyStr
  romanized : Option PyStr
  script : PyStr
  gender : Option Gender
  pos : Option PyStr
deriving DecidableEq

/-- re.search(r'[ऀ-ॿ]', _): any code point in the Devanagari block. -/
def isDeva (c : Char) : Bool := 0x900 ≤ c.toNat && c.toNat ≤ 0x97F

/-- The exact character class of re.search(r'[āīūṛṝḷḹēōṃḥṅñṭḍṇśṣ]', _). -/
def iastChars : List Char :=
  ['ā', 'ī', 'ū', 'ṛ', 'ṝ', 'ḷ', 'ḹ', 'ē', 'ō', 'ṃ', 'ḥ', 'ṅ', 'ñ', 'ṭ', 'ḍ', 'ṇ', 'ś', 'ṣ']

/-- Membership in the IAST diacritic class. -/
def isIastChar (c : Char) : Bool := iastChars.contains c

/-- Devanagari vowel sign AA (U+093E), vowel sign II (U+0940), letter MA
(U+092E) and virama (U+094D), used by the gender suffix tables. -/
def devaAA : Char := Char.ofNat 0x93E

/-- Devanagari vowel sign II (U+0940). -/
def devaII : Char := Char.ofNat 0x940

/-- Devanagari letter MA (U+092E). -/
def devaMA : Char := Char.ofNat 0x92E

/-- Devanagari sign virama (U+094D). -/
def devaVirama : Char := Char.ofNat 0x94D

/-- StarDictImportService._analyze_word: script classification in order
(Devanagari block, IAST diacritics, otherwise romanized), then the
best-effort gender suffix heuristic on the lowercased word. -/
def analyze_word (word : PyStr) : WordInfo :=
  let wi : WordInfo :=
    if word.any isDeva then
      { devanagari := some word, iast := none, romanized := none,
        script := pl "devanagari", gender := none, pos := none }
    else if word.any isIastChar then
      { devanagari := none, iast := some word, romanized := none,
        script := pl "iast", gender := none, pos := none }
    else
      { devanagari := none, iast := none, romanized := some word,
        script := pl "romanized", gender := none, pos := none }
  let wordLower := word.map pyLowerChar
  if pyEndsWithAny wordLower [[devaAA], ['a']] then
    { wi with gender := some .masculine }
  else if pyEndsWithAny wordLower [[devaII], ['ī'], ['i']] then
    { wi with gender := some .feminine }
  else if pyEndsWithAny wordLower [[devaMA, devaVirama], ['a', 'm'], ['u', 'm']] then
    { wi with gender := some .neuter }
  else wi

/-! ## The glossary entry built for persistence -/

/-- The dict handed to SanskritGlossaryEntry(**entry) by
_process_entry_for_import. -/
structure GlossaryEntry where
  word_devanagari : PyStr
  word_iast : PyStr
  word_romanized : PyStr
  meaning_english : PyStr
  meaning_hindi : PyStr
  part_of_speech : Option PyStr
  gender : Option Gender
  context : PyStr
  source : PyStr
  frequency : Nat
  is_verified : Bool
deriving DecidableEq

/-- StarDictImportService._process_entry_for_import: strip word and
definition, skip empty ones, apply the length validation when requested,
then build the glossary dict.  The crucial detail is
word_info.get('devanagari', word): the word itself is the fallback, so
word_devanagari is populated for every script.  The language parameter of
the surrounding method is not used in the constructed entry. -/
def process_entry_for_import (e : Entry) (context : PyStr) (validate : Bool) :
    Option GlossaryEntry :=
  let word := pyStrip e.word
  let definition := pyStrip e.definition
  if word = [] || definition = [] then none
  else if validate && (255 < word.length || 10000 < definition.length) then none
  else
    let wordInfo := analyze_word word
    some
      { word_devanagari := wordInfo.devanagari.getD word,
        word_iast := wordInfo.iast.getD [],
        word_romanized := wordInfo.romanized.getD [],
        meaning_english := definition,
        meaning_hindi := [],
        part_of_speech := wordInfo.pos,
        gender := wordInfo.gender,
        context := context,
        source := e.source_dict,
        frequency := 1,
        is_verified := false }

/-! ## Deduplicator: StarDictImportService._deduplicate_entries

The database is modelled as a Store value (the committed
sanskrit_glossary_entries rows) and, for the deduplication lookups, as a
pair of query functions that may fail, standing for the two awaited
db.execute calls. -/

/-- The committed glossary rows. -/
structure Store where
  rows : List GlossaryEntry
deriving DecidableEq

/-- The devanagari candidate list built by the Python list comprehension:
word_devanagari of every entry whose word_devanagari is truthy (nonempty). -/
def devCands (entries : List GlossaryEntry) : List PyStr :=
  entries.filterMap
    (fun e => if e.word_devanagari = [] then none else some e.word_devanagari)

/-- The IAST candidate list, likewise. -/
def iastCands (entries : List GlossaryEntry) : List PyStr :=
  entries.filterMap
    (fun e => if e.word_iast = [] then none else some e.word_iast)

/-- The SELECT word_devanagari WHERE word_devanagari IN candidates query
against the store: the stored column values that match. -/
def storeMatchesDev (store : Store) (cands : List PyStr) : List PyStr :=
  store.rows.filterMap
    (fun g => if g.word_devanagari ∈ cands then some g.word_devanagari else none)

/-- The SELECT word_iast WHERE word_iast IN candidates query. -/
def storeMatchesIast (store : Store) (cands : List PyStr) : List PyStr :=
  store.rows.filterMap
    (fun g => if g.word_iast ∈ cands then some g.word_iast else none)

/-- The lookup capability _deduplicate_entries uses: the two queries, either
of which may raise (the async session can fail). -/
structure DedupDB where
  queryDev : List PyStr → Except Unit (List PyStr)
  queryIast : List PyStr → Except Unit (List PyStr)

/-- The store-backed lookup: queries never fail and return the matching
column values. -/
def storeDB (store : Store) : DedupDB where
  queryDev := fun cands => .ok (storeMatchesDev store cands)
  queryIast := fun cands => .ok (storeMatchesIast store cands)

/-- The try-body of _deduplicate_entries: run the devanagari query when
there are candidates, then the IAST query, accumulate the existing_words
set, and keep the entries whose word_devanagari and word_iast are both
absent from it. -/
def dedupCore (entries : List GlossaryEntry) (db : DedupDB) :
    Except Unit (List GlossaryEntry) := do
  let existingDev ←
    if devCands entries = [] then pure [] else db.queryDev (devCands entries)
  let existingIast ←
    if iastCands entries = [] then pure [] else db.queryIast (iastCands entries)
  let existingWords := existingDev ++ existingIast
  pure (entries.filter
    (fun e => e.word_devanagari ∉ existingWords ∧ e.word_iast ∉ existingWords))

/-- StarDictImportService._deduplicate_entries: on any error from the
lookups the except-branch returns the input list unchanged. -/
def deduplicate_entries (entries : List GlossaryEntry) (db : DedupDB) :
    List GlossaryEntry :=
  match dedupCore entries db with
  | .ok unique => unique
  | .error _ => entries

/-! ## BatchImporter: the batch loop of import_stardict_dictionary together
with _import_batch -/

/-- The outcome of the batch loop: the two counters, the final store, and
the sequence of _import_batch calls that were issued (each with the chunk it
received), which the Python code performs but does not record. -/
structure BatchResult where
  imported : Nat
  failed : Nat
  store : Store
  calls : List (List GlossaryEntry)
deriving DecidableEq

/-- The for i in range(0, len(processed_entries), batch_size) loop: slice
the next chunk, attempt _import_batch on it (modelled by the insertFails
oracle, standing for commit outcomes of the external store); a successful
chunk is appended to the store and counted in imported_count, a failing
chunk is rolled back and its size added to failed_count, and the loop always
continues with the next chunk.  Each iteration consumes at least one entry
when batchSize is positive, so fuel equal to the number of entries is
sufficient.  With batch_size = 0 the Python loop never runs at all: the
range(0, n, 0) call raises ValueError before the first iteration; the
orchestrator models that error at the point of the range call, so this
loop is only ever entered with a positive batchSize. -/
def batchLoop (batchSize : Nat) (insertFails : Nat → Bool) :
    Nat → List GlossaryEntry → Store → Nat → Nat →
    List (List GlossaryEntry) → Nat → BatchResult
  | _, [], store, imported, failed, calls, _ =>
    { imported := imported, failed := failed, store := store, calls := calls }
  | _, _ :: _, store, imported, failed, calls, 0 =>
    { imported := imported, failed := failed, store := store, calls := calls }
  | batchIdx, l@(_ :: _), store, imported, failed, calls, fuel+1 =>
    let batch := l.take batchSize
    if insertFails batchIdx then
      batchLoop batchSize insertFails (batchIdx + 1) (l.drop batchSize) store
        imported (failed + batch.length) (calls ++ [batch]) fuel
    else
      batchLoop batchSize insertFails (batchIdx + 1) (l.drop batchSize)
        { rows := store.rows ++ batch } (imported + batch.length) failed
        (calls ++ [batch]) fuel

/-! ## ImportOrchestrator: StarDictImportService.import_stardict_dictionary -/

/-- The fatal errors of an import run, mirroring the exceptions the Python
code raises (file-system and gzip failures are outside the model).
zeroBatchSize is the ValueError that range(0, n, 0) raises when the batch
loop is reached with batch_size = 0. -/
inductive ImportError where
  | ifoError (e : IfoError)
  | idxDecodeError
  | dataNotLoaded
  | noEntries
  | zeroBatchSize
deriving DecidableEq

/-- The import_summary dict (the wall-clock import_time field is not
modelled). -/
structure ImportSummary where
  dictionary_name : PyStr
  total_entries : Nat
  processed_entries : Nat
  imported_entries : Nat
  skipped_entries : Nat
  failed_entries : Nat
  language : PyStr
  context : PyStr
  dictionary_info : InfoData
deriving DecidableEq

/-- StarDictImportService.import_stardict_dictionary, from the already-read
archive contents: parse the .ifo lines, parse the .idx bytes, extract the
definitions from the .dict bytes, raise when no entries were found, process
each entry (collecting the skipped words), optionally deduplicate against
the store, then import in batches of batchSize and assemble the summary.
Note that the processed_entries variable is reassigned to the deduplicated
list, so the summary's processed_entries is the post-deduplication count.
When batchSize is zero the run raises at the batch loop: range(0, n, 0) is
a ValueError, raised after deduplication and before any insert (a negative
Python batch_size, which yields an empty range instead, is not
representable by the Nat parameter and is not modelled). -/
def import_stardict_dictionary (ifoLines : List PyStr)
    (idxData dictData : List Nat) (language context : PyStr) (batchSize : Nat)
    (validateEntries dedup : Bool) (store : Store) (insertFails : Nat → Bool) :
    Except ImportError (ImportSummary × Store) :=
  match parse_ifo_core ifoLines with
  | .error e => .error (.ifoError e)
  | .ok info =>
    match parse_idx_file idxData with
    | .error _ => .error .idxDecodeError
    | .ok index =>
      match extract_definitions info index dictData with
      | .error _ => .error .dataNotLoaded
      | .ok entries =>
        if entries = [] then .error .noEntries
        else
          let processed := entries.filterMap
            (fun e => process_entry_for_import e context validateEntries)
          let skippedWords := entries.filterMap
            (fun e => if (process_entry_for_import e context validateEntries).isNone
                      then some e.word else none)
          let processed2 :=
            if dedup then deduplicate_entries processed (storeDB store)
            else processed
          if batchSize = 0 then .error .zeroBatchSize else
          let r := batchLoop batchSize insertFails 0 processed2 store 0 0 []
            processed2.length
          .ok
            ({ dictionary_name := dictGetStr info (pl "bookname") (pl "Unknown"),
               total_entries := entries.length,
               processed_entries := processed2.length,
               imported_entries := r.imported,
               skipped_entries := skippedWords.length,
               failed_entries := r.failed,
               language := language,
               context := context,
               dictionary_info := info }, r.store)

/-! ## Sample archives used by witnesses and counterexamples -/

/-- Big-endian 32-bit encoding, the inverse of be32 on values below 2^32. -/
def enc32 (n : Nat) : List Nat :=
  [n / 16777216 % 256, n / 65536 % 256, n / 256 % 256, n % 256]

/-- Encode one .idx record: word bytes, NUL, then offset and size. -/
def encEntry (w : List Nat) (off sz : Nat) : List Nat :=
  w ++ [0] ++ enc32 off ++ enc32 sz

/-- Encode a whole .idx file from (word bytes, offset, size) triples. -/
def encodeIdx (es : List (List Nat × Nat × Nat)) : List Nat :=
  (es.map (fun e => encEntry e.1 e.2.1 e.2.2)).flatten

/-- A well-formed .ifo file with all required fields. -/
def sampleIfoLines : List PyStr :=
  [ifoSignature, pl "version=2.4.2", pl "bookname=Test", pl "wordcount=3",
   pl "idxfilesize=10"]

/-- The info_data dict produced from sampleIfoLines. -/
def sampleInfo : InfoData :=
  [(pl "version", .str (pl "2.4.2")), (pl "bookname", .str (pl "Test")),
   (pl "wordcount", .int 3), (pl "idxfilesize", .int 10)]

/-- A single-entry index: the word veda at offset 0, size 4. -/
def sampleIdx1 : List Nat := encEntry [118, 101, 100, 97] 0 4

/-- A four-byte blob spelling veda. -/
def sampleDict1 : List Nat := [118, 101, 100, 97]

/-- A three-entry index whose middle entry (mantra, offset 4, size 100) is
out of bounds for a 50-byte blob. -/
def sampleIdx3 : List Nat :=
  encEntry [118, 101, 100, 97] 0 4 ++
  encEntry [109, 97, 110, 116, 114, 97] 4 100 ++
  encEntry [121, 97, 106, 110, 97] 4 6

/-- A 50-byte blob: veda, then mantra, then filler. -/
def sampleDict3 : List Nat :=
  [118, 101, 100, 97] ++ [109, 97, 110, 116, 114, 97] ++ List.replicate 40 120

/-- The glossary entry that importing sampleIdx1/sampleDict1 produces. -/
def sampleVedaEntry : GlossaryEntry :=
  { word_devanagari := pl "veda", word_iast := [], word_romanized := pl "veda",
    meaning_english := pl "veda", meaning_hindi := [], part_of_speech := none,
    gender := some .masculine, context := pl "imported", source := pl "Test",
    frequency := 1, is_verified := false }

/-- A lookup collaborator whose queries always raise. -/
def failDB : DedupDB where
  queryDev := fun _ => .error ()
  queryIast := fun _ => .error ()

/-! ## Helper lemmas about the word classifier and entry processing -/

theorem analyze_word_devanagari (w : PyStr) :
    (analyze_word w).devanagari = if w.any isDeva then some w else none := by
  cases hd : w.any isDeva <;>
    cases hi : w.any isIastChar <;>
      simp only [analyze_word, hd, hi, Bool.false_eq_true, if_true, if_false] <;>
        split <;> try split <;> try split
  all_goals rfl

theorem analyze_word_iast (w : PyStr) :
    (analyze_word w).iast =
      if w.any isDeva = false ∧ w.any isIastChar = true then some w else none := by
  cases hd : w.any isDeva <;>
    cases hi : w.any isIastChar <;>
      simp only [analyze_word, hd, hi, Bool.false_eq_true, if_true, if_false] <;>
        split <;> try split <;> try split
  all_goals simp_all

theorem analyze_word_romanized (w : PyStr) :
    (analyze_word w).romanized =
      if w.any isDeva = false ∧ w.any isIastChar = false then some w else none := by
  cases hd : w.any isDeva <;>
    cases hi : w.any isIastChar <;>
      simp only [analyze_word, hd, hi, Bool.false_eq_true, if_true, if_false] <;>
        split <;> try split <;> try split
  all_goals simp_all

/-- The word-form fields of every glossary entry built by
_process_entry_for_import: word_devanagari always holds the stripped word
(the fallback of word_info.get('devanagari', word)), and word_iast and
word_romanized hold it exactly when the word classified as that script. -/
theorem process_fields (e : Entry) (context : PyStr) (validate : Bool)
    (g : GlossaryEntry)
    (h : process_entry_for_import e context validate = some g) :
    g.word_devanagari = pyStrip e.word ∧ pyStrip e.word ≠ [] ∧
    g.word_iast =
      (if (pyStrip e.word).any isDeva = false ∧ (pyStrip e.word).any isIastChar = true
       then pyStrip e.word else []) ∧
    g.word_romanized =
      (if (pyStrip e.word).any isDeva = false ∧ (pyStrip e.word).any isIastChar = false
       then pyStrip e.word else []) := by
  simp only [process_entry_for_import] at h
  split at h
  · exact absurd h (by simp)
  · split at h
    · exact absurd h (by simp)
    · rename_i hempty _
      obtain rfl : _ = g := Option.some.injEq _ _ ▸ h
      refine ⟨?_, ?_, ?_, ?_⟩
      · rw [analyze_word_devanagari]
        split <;> simp
      · intro hnil
        simp [hnil] at hempty
      · rw [analyze_word_iast]
        split <;> simp_all
      · rw [analyze_word_romanized]
        split <;> simp_all

/-! ## Helper lemmas about deduplication against the store -/

/-- The existing_words set that _deduplicate_entries accumulates when backed
by the store: the matching word_devanagari values followed by the matching
word_iast values. -/
def existingWords (store : Store) (entries : List GlossaryEntry) : List PyStr :=
  storeMatchesDev store (devCands entries) ++ storeMatchesIast store (iastCands entries)

theorem storeMatchesDev_nil (store : Store) : storeMatchesDev store [] = [] := by
  simp [storeMatchesDev]

theorem storeMatchesIast_nil (store : Store) : storeMatchesIast store [] = [] := by
  simp [storeMatchesIast]

/-- Deduplication backed by the store never takes the except-branch and
filters on membership in the accumulated existing_words. -/
theorem dedup_storeDB (entries : List GlossaryEntry) (store : Store) :
    deduplicate_entries entries (storeDB store) =
      entries.filter (fun e =>
        e.word_devanagari ∉ existingWords store entries ∧
        e.word_iast ∉ existingWords store entries) := by
  simp only [deduplicate_entries, dedupCore, storeDB, existingWords]
  by_cases hd : devCands entries = [] <;> by_cases hi : iastCands entries = [] <;>
    simp [hd, hi, storeMatchesDev_nil, storeMatchesIast_nil] <;> rfl

theorem mem_devCands (entries : List GlossaryEntry) (w : PyStr) :
    w ∈ devCands entries ↔ ∃ e ∈ entries, e.word_devanagari = w ∧ w ≠ [] := by
  simp only [devCands, List.mem_filterMap]
  constructor
  · rintro ⟨e, he, hw⟩
    by_cases h : e.word_devanagari = [] <;> simp [h] at hw
    exact ⟨e, he, hw, hw ▸ h⟩
  · rintro ⟨e, he, rfl, hne⟩
    exact ⟨e, he, by simp [hne]⟩

theorem mem_storeMatchesDev (store : Store) (cands : List PyStr) (w : PyStr) :
    w ∈ storeMatchesDev store cands ↔
      ∃ g ∈ store.rows, g.word_devanagari = w ∧ w ∈ cands := by
  simp only [storeMatchesDev, List.mem_filterMap]
  constructor
  · rintro ⟨g, hg, hw⟩
    by_cases h : g.word_devanagari ∈ cands <;> simp [h] at hw
    exact ⟨g, hg, hw, hw ▸ h⟩
  · rintro ⟨g, hg, rfl, hc⟩
    exact ⟨g, hg, by simp [hc]⟩

theorem mem_storeMatchesIast (store : Store) (cands : List PyStr) (w : PyStr) :
    w ∈ storeMatchesIast store cands ↔
      ∃ g ∈ store.rows, g.word_iast = w ∧ w ∈ cands := by
  simp only [storeMatchesIast, List.mem_filterMap]
  constructor
  · rintro ⟨g, hg, hw⟩
    by_cases h : g.word_iast ∈ cands <;> simp [h] at hw
    exact ⟨g, hg, hw, hw ▸ h⟩
  · rintro ⟨g, hg, rfl, hc⟩
    exact ⟨g, hg, by simp [hc]⟩

theorem mem_iastCands (entries : List GlossaryEntry) (w : PyStr) :
    w ∈ iastCands entries ↔ ∃ e ∈ entries, e.word_iast = w ∧ w ≠ [] := by
  simp only [iastCands, List.mem_filterMap]
  constructor
  · rintro ⟨e, he, hw⟩
    by_cases h : e.word_iast = [] <;> simp [h] at hw
    exact ⟨e, he, hw, hw ▸ h⟩
  · rintro ⟨e, he, rfl, hne⟩
    exact ⟨e, he, by simp [hne]⟩

/-- Every member of the existing_words set is a nonempty string, because the
candidate lists only contain truthy (nonempty) column values. -/
theorem nil_not_mem_existingWords (store : Store) (entries : List GlossaryEntry) :
    [] ∉ existingWords store entries := by
  intro h
  rcases List.mem_append.mp h with h | h
  · obtain ⟨g, _, _, hc⟩ := (mem_storeMatchesDev store _ _).mp h
    obtain ⟨e, _, _, hne⟩ := (mem_devCands entries _).mp hc
    exact hne rfl
  · obtain ⟨g, _, _, hc⟩ := (mem_storeMatchesIast store _ _).mp h
    obtain ⟨e, _, _, hne⟩ := (mem_iastCands entries _).mp hc
    exact hne rfl

/-! ## Claim C1 -/

/-- C1 (counterexample): the word brāhmaṇa classifies as IAST, yet the
constructed glossary entry populates word_devanagari with the word itself
(the fallback of word_info.get('devanagari', word)) in addition to
word_iast, so two of the three word-form fields are populated and
word_devanagari is not empty for an IAST-classified word. -/
theorem c1_counterexample :
    (analyze_word (pl "brāhmaṇa")).script = pl "iast" ∧
    (process_entry_for_import ⟨pl "brāhmaṇa", pl "d", [], []⟩ [] true).map
      (fun g => (g.word_devanagari, g.word_iast, g.word_romanized)) =
      some (pl "brāhmaṇa", pl "brāhmaṇa", []) ∧
    pl "brāhmaṇa" ≠ [] := by
  decide

/-- C1 (amended): for every record built for import, word_devanagari is
always populated with the (stripped, nonempty) word itself — both for
Devanagari-classified words and as the fallback for every other script —
while word_iast is populated exactly for IAST-classified words and
word_romanized exactly for Romanized-classified words.  A Devanagari word
thus populates exactly one word-form field, while an IAST or Romanized word
populates exactly two of them, word_devanagari included. -/
theorem c1_word_form_fields (e : Entry) (context : PyStr) (validate : Bool)
    (g : GlossaryEntry)
    (h : process_entry_for_import e context validate = some g) :
    g.word_devanagari = pyStrip e.word ∧ pyStrip e.word ≠ [] ∧
    g.word_iast =
      (if (pyStrip e.word).any isDeva = false ∧ (pyStrip e.word).any isIastChar = true
       then pyStrip e.word else []) ∧
    g.word_romanized =
      (if (pyStrip e.word).any isDeva = false ∧ (pyStrip e.word).any isIastChar = false
       then pyStrip e.word else []) :=
  process_fields e context validate g h

/-- C1 witness: the amended theorem applied to the IAST word brāhmaṇa. -/
theorem c1_word_form_fields_witness :
    ({ word_devanagari := pl "brāhmaṇa", word_iast := pl "brāhmaṇa",
       word_romanized := [], meaning_english := pl "d", meaning_hindi := [],
       part_of_speech := none, gender := some .masculine, context := [],
       source := [], frequency := 1, is_verified := false } :
        GlossaryEntry).word_devanagari = pyStrip (pl "brāhmaṇa") ∧
    pyStrip (pl "brāhmaṇa") ≠ [] ∧
    ({ word_devanagari := pl "brāhmaṇa", word_iast := pl "brāhmaṇa",
       word_romanized := [], meaning_english := pl "d", meaning_hindi := [],
       part_of_speech := none, gender := some .masculine, context := [],
       source := [], frequency := 1, is_verified := false } :
        GlossaryEntry).word_iast =
      (if (pyStrip (pl "brāhmaṇa")).any isDeva = false ∧
          (pyStrip (pl "brāhmaṇa")).any isIastChar = true
       then pyStrip (pl "brāhmaṇa") else []) ∧
    ({ word_devanagari := pl "brāhmaṇa", word_iast := pl "brāhmaṇa",
       word_romanized := [], meaning_english := pl "d", meaning_hindi := [],
       part_of_speech := none, gender := some .masculine, context := [],
       source := [], frequency := 1, is_verified := false } :
        GlossaryEntry).word_romanized =
      (if (pyStrip (pl "brāhmaṇa")).any isDeva = false ∧
          (pyStrip (pl "brāhmaṇa")).any isIastChar = false
       then pyStrip (pl "brāhmaṇa") else []) :=
  c1_word_form_fields ⟨pl "brāhmaṇa", pl "d", [], []⟩ [] true _ (by decide)

/-! ## Claim C2 -/

/-- C2 (counterexample): the word veda classifies as Romanized, yet with
deduplicate=true the Deduplicator filters it out when the store already
holds a row whose word_devanagari equals the word — because the record's
word_devanagari is populated with the word itself by the fallback, the
devanagari existence lookup matches and the record does not pass through. -/
theorem c2_counterexample :
    (analyze_word (pl "veda")).script = pl "romanized" ∧
    process_entry_for_import ⟨pl "veda", pl "veda", pl "Test", []⟩
      (pl "imported") true = some sampleVedaEntry ∧
    deduplicate_entries [sampleVedaEntry] (storeDB ⟨[sampleVedaEntry]⟩) = [] := by
  decide

/-- C2 (amended): a record whose word classifies as Romanized carries the
word in word_devanagari (and an empty word_iast), so with the store-backed
lookup it passes deduplication exactly when the word is not among the
matched existing words; it is not exempt from deduplication. -/
theorem c2_romanized_not_exempt (e : Entry) (context : PyStr) (validate : Bool)
    (g : GlossaryEntry) (entries : List GlossaryEntry) (store : Store)
    (hp : process_entry_for_import e context validate = some g)
    (hrom : (pyStrip e.word).any isDeva = false ∧
            (pyStrip e.word).any isIastChar = false)
    (hmem : g ∈ entries) :
    g ∈ deduplicate_entries entries (storeDB store) ↔
      pyStrip e.word ∉ existingWords store entries := by
  obtain ⟨hdev, hne, hiast, hrm⟩ := process_fields e context validate g hp
  have hiast0 : g.word_iast = [] := by
    rw [hiast]
    split
    · rename_i hcond
      rw [hrom.2] at hcond
      exact absurd hcond.2 (by simp)
    · rfl
  rw [dedup_storeDB]
  simp only [List.mem_filter, hmem, true_and, decide_eq_true_eq]
  rw [hdev, hiast0]
  constructor
  · exact fun h => h.1
  · exact fun h => ⟨h, nil_not_mem_existingWords store entries⟩

/-- C2 witness: the amended theorem applied to the Romanized word veda with
an empty store. -/
theorem c2_romanized_not_exempt_witness :
    sampleVedaEntry ∈ deduplicate_entries [sampleVedaEntry] (storeDB ⟨[]⟩) ↔
      pyStrip (pl "veda") ∉ existingWords ⟨[]⟩ [sampleVedaEntry] :=
  c2_romanized_not_exempt ⟨pl "veda", pl "veda", pl "Test", []⟩ (pl "imported")
    true sampleVedaEntry [sampleVedaEntry] ⟨[]⟩ (by decide) (by decide)
    (by decide)

/-! ## Claim C5 -/

/-- No two adjacent characters both satisfy p. -/
def noTwoAdjacent (p : Char → Bool) : List Char → Bool
  | [] => true
  | [_] => true
  | a :: b :: rest => !(p a && p b) && noTwoAdjacent p (b :: rest)

theorem mem_collapseWsAux (c : Char) :
    ∀ (l : List Char) (b : Bool), c ∈ collapseWsAux l b →
      c = ' ' ∨ (c ∈ l ∧ pyIsSpace c = false) := by
  intro l
  induction l with
  | nil => intro b h; simp [collapseWsAux] at h
  | cons a rest ih =>
    intro b h
    by_cases ha : pyIsSpace a = true
    · cases b with
      | true =>
        simp only [collapseWsAux, ha, if_true] at h
        rcases ih true h with h' | h'
        · exact Or.inl h'
        · exact Or.inr ⟨List.mem_cons_of_mem a h'.1, h'.2⟩
      | false =>
        simp only [collapseWsAux, ha, if_true] at h
        rcases List.mem_cons.mp h with rfl | h'
        · exact Or.inl rfl
        · rcases ih true h' with h'' | h''
          · exact Or.inl h''
          · exact Or.inr ⟨List.mem_cons_of_mem a h''.1, h''.2⟩
    · simp only [collapseWsAux, ha, if_false, Bool.not_eq_true] at h
      rw [if_neg (by simp [Bool.not_eq_true] at ha; simp [ha])] at h
      rcases List.mem_cons.mp h with rfl | h'
      · exact Or.inr ⟨List.mem_cons_self _ _, by simpa using ha⟩
      · rcases ih false h' with h'' | h''
        · exact Or.inl h''
        · exact Or.inr ⟨List.mem_cons_of_mem a h''.1, h''.2⟩

theorem collapseWsAux_head_true :
    ∀ (l : List Char) (c : Char) (cs : List Char),
      collapseWsAux l true = c :: cs → pyIsSpace c = false := by
  intro l
  induction l with
  | nil => intro c cs h; simp [collapseWsAux] at h
  | cons a rest ih =>
    intro c cs h
    by_cases ha : pyIsSpace a = true
    · simp only [collapseWsAux, ha, if_true] at h
      exact ih c cs h
    · rw [Bool.not_eq_true] at ha
      simp only [collapseWsAux, ha, Bool.false_eq_true, if_false] at h
      obtain ⟨rfl, -⟩ := List.cons_eq_cons.mp h
      exact ha

theorem noTwoAdjacent_collapseWsAux :
    ∀ (l : List Char) (b : Bool),
      noTwoAdjacent pyIsSpace (collapseWsAux l b) = true := by
  intro l
  induction l with
  | nil => intro b; rfl
  | cons a rest ih =>
    intro b
    by_cases ha : pyIsSpace a = true
    · cases b with
      | true =>
        simp only [collapseWsAux, ha, if_true]
        exact ih true
      | false =>
        simp only [collapseWsAux, ha, if_true]
        cases hx : collapseWsAux rest true with
        | nil => rfl
        | cons c cs =>
          have hc := collapseWsAux_head_true rest c cs hx
          have hrest := ih true
          rw [hx] at hrest
          simp [noTwoAdjacent, hc, hrest]
    · rw [Bool.not_eq_true] at ha
      simp only [collapseWsAux, ha, Bool.false_eq_true, if_false]
      cases hx : collapseWsAux rest false with
      | nil => rfl
      | cons c cs =>
        have hrest := ih false
        rw [hx] at hrest
        simp [noTwoAdjacent, ha, hrest]

/-- C5 (counterexample): the definition bytes 0x61 0x00 produce the string
consisting of the letter a followed by a space — the result ends with
whitespace, because the Python code strips before it substitutes spaces for
control characters.  Moreover invalid UTF-8 bytes are dropped (decode with
errors equal to ignore), not replaced: the lone byte 0xFF decodes to the
empty string rather than a replacement character. -/
theorem c5_counterexample :
    parse_definition_data [97, 0] = ['a', ' '] ∧ pyIsSpace ' ' = true ∧
    parse_definition_data [255] = [] := by
  decide

/-- C5 (amended): for every definition byte slice, the extracted definition
contains no control characters (each was replaced by a space), every
whitespace character in it is a plain space, and no two adjacent characters
are whitespace; however, because the trim happens before the
control-character substitution, the result may still begin or end with a
single space, and invalid UTF-8 sequences are dropped rather than replaced. -/
theorem c5_definition_sanitized (data : List Nat) :
    (∀ c ∈ parse_definition_data data, isCtrlChar c = false) ∧
    (∀ c ∈ parse_definition_data data, pyIsSpace c = true → c = ' ') ∧
    noTwoAdjacent pyIsSpace (parse_definition_data data) = true := by
  simp only [parse_definition_data, collapseWs]
  refine ⟨?_, ?_, noTwoAdjacent_collapseWsAux _ false⟩
  · intro c hc
    rcases mem_collapseWsAux c _ false hc with rfl | ⟨hm, _⟩
    · decide
    · rcases List.mem_map.mp hm with ⟨a, _, rfl⟩
      by_cases hca : isCtrlChar a = true
      · rw [if_pos hca]
        decide
      · rw [Bool.not_eq_true] at hca
        rw [if_neg (by simp [hca])]
        exact hca
  · intro c hc hs
    rcases mem_collapseWsAux c _ false hc with rfl | ⟨_, hns⟩
    · rfl
    · rw [hs] at hns
      exact absurd hns (by simp)

/-- C5 witness: the sanitization properties evaluated at the bytes of a
definition containing control characters and whitespace runs. -/
theorem c5_definition_sanitized_witness :
    (∀ c ∈ parse_definition_data [32, 97, 0, 0, 98, 32, 32, 99, 32],
      isCtrlChar c = false) ∧
    (∀ c ∈ parse_definition_data [32, 97, 0, 0, 98, 32, 32, 99, 32],
      pyIsSpace c = true → c = ' ') ∧
    noTwoAdjacent pyIsSpace
      (parse_definition_data [32, 97, 0, 0, 98, 32, 32, 99, 32]) = true :=
  c5_definition_sanitized [32, 97, 0, 0, 98, 32, 32, 99, 32]

/-! ## Claim C7 -/

/-- C7 (counterexample): importing an archive whose index holds three
entries, the middle one with offset 4 and size 100 against a 50-byte blob,
yields a summary in which no counter accounts for the out-of-bounds entry:
total_entries is 2 (not 3) and skipped_entries is 0 — the entry is silently
dropped during extraction, not recorded in the skip accounting. -/
theorem c7_counterexample :
    (parse_idx_file sampleIdx3).map List.length = .ok 3 ∧
    (import_stardict_dictionary sampleIfoLines sampleIdx3 sampleDict3
        (pl "sanskrit") (pl "imported") 100 true true ⟨[]⟩
        (fun _ => false)).map
      (fun p => (p.1.total_entries, p.1.processed_entries,
        p.1.imported_entries, p.1.skipped_entries, p.1.failed_entries)) =
      .ok (2, 2, 2, 0, 0) := by
  decide

/-- C7 (amended): an index entry whose offset + length exceeds the blob
length is never read (the bounds check precedes the slice) and never aborts
the run: extraction of the whole index behaves exactly as if the bad entry
were absent.  The entry is however not counted in the summary's skip
accounting — it silently disappears from total_entries as well. -/
theorem c7_oob_as_if_absent (dictData : List Nat) (bookname : PyStr)
    (pre post : List IdxEntry) (word : PyStr) (offset size : Nat)
    (hoob : dictData.length < offset + size) :
    extractLoop dictData bookname (pre ++ (word, offset, size) :: post) =
      extractLoop dictData bookname (pre ++ post) := by
  induction pre with
  | nil =>
    simp only [List.nil_append, extractLoop]
    rw [if_pos hoob]
  | cons p rest ih =>
    obtain ⟨w, o, s⟩ := p
    simp only [List.cons_append, extractLoop, List.append_eq]
    rw [ih]

/-- C7 witness: the amended theorem applied to a four-byte blob with an
out-of-bounds middle entry. -/
theorem c7_oob_as_if_absent_witness :
    extractLoop sampleDict1 (pl "Test")
        ([(pl "a", 0, 1)] ++ (pl "m", 2, 100) :: [(pl "b", 1, 1)]) =
      extractLoop sampleDict1 (pl "Test") ([(pl "a", 0, 1)] ++ [(pl "b", 1, 1)]) :=
  c7_oob_as_if_absent sampleDict1 (pl "Test") [(pl "a", 0, 1)] [(pl "b", 1, 1)]
    (pl "m") 2 100 (by decide)

/-! ## Claim C8 -/

/-- C8: with batch_size 2 and five surviving records, the importer issues
exactly three insert calls with chunks of sizes 2, 2 and 1 in order, no
matter which batches fail; and when exactly the second call fails, the
final counters are imported_entries = 3 and failed_entries = 2 — the third
chunk is still attempted after the failure. -/
theorem c8_batch_boundary (a b c d e : GlossaryEntry) (store : Store)
    (insertFails : Nat → Bool) :
    (batchLoop 2 insertFails 0 [a, b, c, d, e] store 0 0 [] 5).calls =
      [[a, b], [c, d], [e]] ∧
    ((batchLoop 2 insertFails 0 [a, b, c, d, e] store 0 0 [] 5).calls.map
      List.length = [2, 2, 1]) ∧
    (batchLoop 2 (fun i => decide (i = 1)) 0 [a, b, c, d, e] store 0 0 []
      5).imported = 3 ∧
    (batchLoop 2 (fun i => decide (i = 1)) 0 [a, b, c, d, e] store 0 0 []
      5).failed = 2 := by
  refine ⟨?_, ?_, rfl, rfl⟩ <;>
    cases h0 : insertFails 0 <;> cases h1 : insertFails 1 <;>
      cases h2 : insertFails 2 <;> simp [batchLoop, h0, h1, h2]

/-- C8 witness: the chunking and the failure attribution evaluated at five
concrete records with the second batch failing. -/
theorem c8_batch_boundary_witness :
    (batchLoop 2 (fun i => decide (i = 1)) 0
        [sampleVedaEntry, sampleVedaEntry, sampleVedaEntry, sampleVedaEntry,
         sampleVedaEntry] ⟨[]⟩ 0 0 [] 5).calls.map List.length = [2, 2, 1] ∧
    (batchLoop 2 (fun i => decide (i = 1)) 0
        [sampleVedaEntry, sampleVedaEntry, sampleVedaEntry, sampleVedaEntry,
         sampleVedaEntry] ⟨[]⟩ 0 0 [] 5).imported = 3 ∧
    (batchLoop 2 (fun i => decide (i = 1)) 0
        [sampleVedaEntry, sampleVedaEntry, sampleVedaEntry, sampleVedaEntry,
         sampleVedaEntry] ⟨[]⟩ 0 0 [] 5).failed = 2 :=
  ⟨(c8_batch_boundary sampleVedaEntry sampleVedaEntry sampleVedaEntry
      sampleVedaEntry sampleVedaEntry ⟨[]⟩ (fun i => decide (i = 1))).2.1,
   (c8_batch_boundary sampleVedaEntry sampleVedaEntry sampleVedaEntry
      sampleVedaEntry sampleVedaEntry ⟨[]⟩ (fun i => decide (i = 1))).2.2.1,
   (c8_batch_boundary sampleVedaEntry sampleVedaEntry sampleVedaEntry
      sampleVedaEntry sampleVedaEntry ⟨[]⟩ (fun i => decide (i = 1))).2.2.2⟩

/-! ## Claim C9 -/

/-- C9 (counterexample): parse_ifo_file is not side-effect free — it
overwrites the parser object's info_data field, so the parser state after
the call differs from the state before it. -/
theorem c9_counterexample :
    parse_ifo_file ⟨[(pl "k", .str (pl "v"))], [], []⟩ sampleIfoLines =
      .ok (⟨sampleInfo, [], []⟩, sampleInfo) ∧
    (⟨sampleInfo, [], []⟩ : ParserState) ≠ ⟨[(pl "k", .str (pl "v"))], [], []⟩ := by
  decide

/-- C9 (amended): the metadata value returned by parse_ifo_file is computed
from the file's lines alone — parsing archive B returns the same value
whatever parser state was left behind by a previously parsed archive A —
but the call does mutate the parser object, storing the parsed dict into
its info_data field (leaving the other fields untouched). -/
theorem c9_metadata_state_independent (s s' : ParserState)
    (lines : List PyStr) :
    (parse_ifo_file s lines).map Prod.snd =
      (parse_ifo_file s' lines).map Prod.snd ∧
    (∀ s2 d, parse_ifo_file s lines = .ok (s2, d) →
      s2.info_data = d ∧ s2.index_data = s.index_data ∧
      s2.dict_data = s.dict_data) := by
  constructor
  · simp only [parse_ifo_file]
    cases parse_ifo_core lines <;> rfl
  · intro s2 d h
    simp only [parse_ifo_file] at h
    cases hc : parse_ifo_core lines with
    | error er =>
      rw [hc] at h
      exact absurd h (by simp [Except.map])
    | ok d' =>
      rw [hc] at h
      simp only [Except.map, Except.ok.injEq, Prod.mk.injEq] at h
      obtain ⟨hs2, rfl⟩ := h
      rw [← hs2]
      exact ⟨rfl, rfl, rfl⟩

/-- C9 witness: the amended theorem applied to two distinct prior states
and the sample .ifo lines. -/
theorem c9_metadata_state_independent_witness :
    (parse_ifo_file ⟨[], [], []⟩ sampleIfoLines).map Prod.snd =
      (parse_ifo_file ⟨sampleInfo, [], [0]⟩ sampleIfoLines).map Prod.snd ∧
    (∀ s2 d, parse_ifo_file ⟨[], [], []⟩ sampleIfoLines = .ok (s2, d) →
      s2.info_data = d ∧
      s2.index_data = (⟨[], [], []⟩ : ParserState).index_data ∧
      s2.dict_data = (⟨[], [], []⟩ : ParserState).dict_data) :=
  c9_metadata_state_independent ⟨[], [], []⟩ ⟨sampleInfo, [], [0]⟩ sampleIfoLines

/-! ## Claim C10 -/

/-- A lookup collaborator whose devanagari query succeeds but whose IAST
query raises — the second awaited db.execute fails after the first one
returned. -/
def iastFailDB : DedupDB where
  queryDev := fun _ => .ok []
  queryIast := fun _ => .error ()

/-- The glossary entry built from the IAST word brāhmaṇa, whose word_iast
is populated so the IAST existence query is actually issued. -/
def sampleIastEntry : GlossaryEntry :=
  { word_devanagari := pl "brāhmaṇa", word_iast := pl "brāhmaṇa",
    word_romanized := [], meaning_english := pl "d", meaning_hindi := [],
    part_of_speech := none, gender := some .masculine, context := [],
    source := [], frequency := 1, is_verified := false }

/-- Whenever the try-body of _deduplicate_entries raises, the except-branch
returns the input list unchanged. -/
theorem deduplicate_entries_error (entries : List GlossaryEntry)
    (db : DedupDB) (h : dedupCore entries db = .error ()) :
    deduplicate_entries entries db = entries := by
  simp [deduplicate_entries, h]

/-- C10: when an existence lookup raises during deduplication — whether the
devanagari query raises, or the devanagari query completes and the IAST
query then raises — the except-branch of _deduplicate_entries returns the
input record list unchanged: a database failure at the dedup stage disables
deduplication for the run rather than aborting it, and every record
proceeds to batch import. -/
theorem c10_dedup_error_returns_input (entries : List GlossaryEntry)
    (db : DedupDB)
    (h : (devCands entries ≠ [] ∧ db.queryDev (devCands entries) = .error ()) ∨
         (iastCands entries ≠ [] ∧ db.queryIast (iastCands entries) = .error ())) :
    deduplicate_entries entries db = entries := by
  apply deduplicate_entries_error
  rcases h with ⟨hne, herr⟩ | ⟨hne, herr⟩
  · simp only [dedupCore, if_neg hne, herr]
    rfl
  · by_cases hd : devCands entries = []
    · simp only [dedupCore, if_pos hd, if_neg hne, herr]
      rfl
    · cases hq : db.queryDev (devCands entries) with
      | error u =>
        simp only [dedupCore, if_neg hd, hq]
        rfl
      | ok ex1 =>
        simp only [dedupCore, if_neg hd, hq, if_neg hne, herr]
        rfl

/-- C10 witness: deduplication of a one-record list whose devanagari query
succeeds and whose IAST query raises returns the list unchanged. -/
theorem c10_dedup_error_returns_input_witness :
    deduplicate_entries [sampleIastEntry] iastFailDB = [sampleIastEntry] :=
  c10_dedup_error_returns_input [sampleIastEntry] iastFailDB
    (Or.inr ⟨by decide, by decide⟩)

/-! ## Claim C3 -/

/-- C3 (counterexample): an archive whose header parses and whose index
parses (one entry, no decode failure) but whose only entry is out of bounds
for the one-byte blob yields zero extractable entries — and the import run
raises (the no-entries ValueError) instead of returning a usable empty
summary. -/
theorem c3_counterexample :
    import_stardict_dictionary sampleIfoLines (encEntry [97] 0 100) [120]
      (pl "sanskrit") (pl "imported") 100 true true ⟨[]⟩ (fun _ => false) =
      .error .noEntries ∧
    parse_ifo_core sampleIfoLines = .ok sampleInfo ∧
    (parse_idx_file (encEntry [97] 0 100)).map List.length = .ok 1 := by
  decide

/-- C3 (amended): when the header parses, the index parses, index and blob
data are nonempty, the batch size is positive (a zero batch_size makes the
batch loop's range call raise), and at least one entry is extractable, then
the import run returns an ImportSummary rather than raising — per-entry skips,
deduplication and per-batch insert failures are all folded into the summary
counters.  An archive yielding zero extractable entries is not covered: the
code raises for it. -/
theorem c3_ok_summary (ifoLines : List PyStr) (idxData dictData : List Nat)
    (language context : PyStr) (batchSize : Nat) (validateEntries dedup : Bool)
    (store : Store) (insertFails : Nat → Bool) (info : InfoData)
    (index : List IdxEntry) (hbs : 1 ≤ batchSize)
    (hifo : parse_ifo_core ifoLines = .ok info)
    (hidx : parse_idx_file idxData = .ok index)
    (hindex : index ≠ []) (hdict : dictData ≠ [])
    (hnz : extractLoop dictData (dictGetStr info (pl "bookname") (pl "Unknown"))
      index ≠ []) :
    ∃ summary store2,
      import_stardict_dictionary ifoLines idxData dictData language context
        batchSize validateEntries dedup store insertFails =
        .ok (summary, store2) := by
  have hg : (index = [] || dictData = []) = false := by
    simp [hindex, hdict]
  have hbz : ¬batchSize = 0 := by omega
  simp only [import_stardict_dictionary, hifo, hidx, extract_definitions, hg,
    Bool.false_eq_true, if_false]
  simp only [if_neg hnz, if_neg hbz]
  exact ⟨_, _, rfl⟩

/-- C3 witness: the amended theorem applied to the single-entry veda
archive. -/
theorem c3_ok_summary_witness :
    ∃ summary store2,
      import_stardict_dictionary sampleIfoLines sampleIdx1 sampleDict1
        (pl "sanskrit") (pl "imported") 100 true true ⟨[]⟩ (fun _ => false) =
        .ok (summary, store2) :=
  c3_ok_summary sampleIfoLines sampleIdx1 sampleDict1 (pl "sanskrit")
    (pl "imported") 100 true true ⟨[]⟩ (fun _ => false) sampleInfo
    [(pl "veda", 0, 4)] (by decide) (by decide) (by decide) (by decide)
    (by decide) (by decide)

/-! ## Claim C4 -/

/-- The word a strict UTF-8 decode of the given bytes yields (empty on a
decode failure, which the callers exclude). -/
def decodeWord (wb : List Nat) : PyStr :=
  match utf8DecodeStrict wb with
  | .ok w => w
  | .error _ => []

/-- A well-formed encoded index record: NUL-free word bytes that decode as
UTF-8, and offset and size below 2^32. -/
def goodIdxEntry (e : List Nat × Nat × Nat) : Bool :=
  decide ((0 : Nat) ∉ e.1) && (utf8DecodeStrict e.1).isOk &&
    decide (e.2.1 < 2 ^ 32) && decide (e.2.2 < 2 ^ 32)

/-- A truncated index tail in the sense of the scan loop: either no further
NUL exists, or fewer than 8 bytes follow the next NUL (and the word before
that NUL still decodes, since the Python code decodes the word before the
remaining-length check). -/
def truncatedIdxTail (tail : List Nat) : Bool :=
  match splitAtNul tail with
  | none => true
  | some (w, r) => decide (r.length < 8) && (utf8DecodeStrict w).isOk

theorem splitAtNul_append (w r : List Nat) (h : (0 : Nat) ∉ w) :
    splitAtNul (w ++ 0 :: r) = some (w, r) := by
  induction w with
  | nil => simp [splitAtNul]
  | cons b bs ih =>
    have hb : b ≠ 0 := fun hb => h (hb ▸ List.mem_cons_self b bs)
    have hbs : (0 : Nat) ∉ bs := fun hm => h (List.mem_cons_of_mem b hm)
    simp only [List.cons_append, splitAtNul, if_neg hb, List.append_eq]
    rw [ih hbs]
    rfl

theorem enc32_length (n : Nat) : (enc32 n).length = 4 := rfl

theorem be32_enc32 (n : Nat) (h : n < 2 ^ 32) : be32 (enc32 n) = n := by
  simp only [be32, enc32, List.foldl_cons, List.foldl_nil]
  omega

theorem parseIdxAux_trunc (fuel : Nat) (tail : List Nat)
    (ht : truncatedIdxTail tail = true) : parseIdxAux fuel tail = .ok [] := by
  cases tail with
  | nil => cases fuel <;> rfl
  | cons b bs =>
    cases fuel with
    | zero => rfl
    | succ f =>
      simp only [parseIdxAux]
      cases hs : splitAtNul (b :: bs) with
      | none => rfl
      | some p =>
        obtain ⟨w, r⟩ := p
        simp only [truncatedIdxTail, hs, Bool.and_eq_true, decide_eq_true_eq] at ht
        cases hw : utf8DecodeStrict w with
        | error u =>
          rw [hw] at ht
          exact absurd ht.2 (by simp [Except.isOk, Except.toBool])
        | ok word =>
          simp only [hw, if_pos ht.1]

/-- The scan loop run on well-formed records followed by a truncated tail
recovers exactly the encoded records, whatever sufficient fuel is used. -/
theorem parseIdxAux_encode (es : List (List Nat × Nat × Nat)) (tail : List Nat)
    (hes : ∀ e ∈ es, goodIdxEntry e = true)
    (ht : truncatedIdxTail tail = true) :
    ∀ fuel, (encodeIdx es ++ tail).length ≤ fuel →
      parseIdxAux fuel (encodeIdx es ++ tail) =
        .ok (es.map (fun e => (decodeWord e.1, e.2.1, e.2.2))) := by
  induction es with
  | nil =>
    intro fuel _
    simpa [encodeIdx] using parseIdxAux_trunc fuel tail ht
  | cons e es ih =>
    obtain ⟨wb, off, sz⟩ := e
    intro fuel hf
    have hg := hes _ (List.mem_cons_self _ _)
    simp only [goodIdxEntry, Bool.and_eq_true, decide_eq_true_eq] at hg
    obtain ⟨⟨⟨hnul, h2⟩, h3⟩, h4⟩ := hg
    have hdata : encodeIdx ((wb, off, sz) :: es) ++ tail =
        wb ++ 0 :: (enc32 off ++ (enc32 sz ++ (encodeIdx es ++ tail))) := by
      simp [encodeIdx, encEntry, List.append_assoc]
    rw [hdata] at hf ⊢
    have hlen : (wb ++ 0 :: (enc32 off ++ (enc32 sz ++ (encodeIdx es ++ tail)))).length =
        wb.length + 9 + (encodeIdx es ++ tail).length := by
      simp [List.length_append, enc32_length]
      omega
    cases fuel with
    | zero =>
      rw [hlen] at hf
      omega
    | succ f =>
      obtain ⟨d, ds, hds⟩ :
          ∃ d ds, wb ++ 0 :: (enc32 off ++ (enc32 sz ++ (encodeIdx es ++ tail))) =
            d :: ds := by
        cases wb <;> exact ⟨_, _, rfl⟩
      rw [hds]
      simp only [parseIdxAux]
      rw [← hds, splitAtNul_append wb _ hnul]
      cases hw : utf8DecodeStrict wb with
      | error u =>
        rw [hw] at h2
        exact absurd h2 (by simp [Except.isOk, Except.toBool])
      | ok word =>
        simp only [hw]
        have hlen8 : ¬(enc32 off ++ (enc32 sz ++ (encodeIdx es ++ tail))).length < 8 := by
          simp only [List.length_append, enc32_length, Nat.not_lt]
          omega
        rw [if_neg hlen8]
        have htake4 : (enc32 off ++ (enc32 sz ++ (encodeIdx es ++ tail))).take 4 =
            enc32 off := List.take_left' (enc32_length off)
        have hdrop4 : (enc32 off ++ (enc32 sz ++ (encodeIdx es ++ tail))).drop 4 =
            enc32 sz ++ (encodeIdx es ++ tail) := List.drop_left' (enc32_length off)
        have htake4b : (enc32 sz ++ (encodeIdx es ++ tail)).take 4 = enc32 sz :=
          List.take_left' (enc32_length sz)
        have hdrop8 : (enc32 off ++ (enc32 sz ++ (encodeIdx es ++ tail))).drop 8 =
            encodeIdx es ++ tail := by
          rw [← List.append_assoc]
          exact List.drop_left' (by simp [List.length_append, enc32_length])
        rw [htake4, hdrop4, htake4b, hdrop8, be32_enc32 off h3, be32_enc32 sz h4]
        have hrec : (encodeIdx es ++ tail).length ≤ f := by
          rw [hlen] at hf
          omega
        rw [ih (fun e he => hes e (List.mem_cons_of_mem _ he)) f hrec,
          List.map_cons]
        simp only [decodeWord, hw]
        rfl

/-- C4 (counterexample): the two-byte index 0xFF 0x00 has a NUL with fewer
than 8 bytes remaining after it, yet the parser raises (the word bytes are
decoded before the remaining-length check and 0xFF is invalid UTF-8)
instead of returning the entries collected so far.  Moreover, no
partial_index boolean is reported: a complete index and the same index with
a truncated tail appended produce identical results, so the output carries
no truncation information at all. -/
theorem c4_counterexample :
    parse_idx_file [255, 0] = .error () ∧
    splitAtNul [255, 0] = some ([255], []) ∧
    parse_idx_file (encEntry [97] 0 0) =
      parse_idx_file (encEntry [97] 0 0 ++ [98, 0, 5]) ∧
    encEntry [97] 0 0 ++ [98, 0, 5] ≠ encEntry [97] 0 0 := by
  decide

/-- C4 (amended): for every index consisting of well-formed records followed
by a truncated tail — no further NUL, or fewer than 8 bytes after the next
NUL with word bytes that still decode (the decode precedes the length
check, so an undecodable tail word is instead a hard failure) — the parser
returns without error exactly the well-formed prefix, and re-parsing the
same bytes yields the identical entry sequence since the parser is a pure
function of the bytes.  No partial_index flag accompanies the result. -/
theorem c4_truncated_prefix (es : List (List Nat × Nat × Nat))
    (tail : List Nat) (hes : ∀ e ∈ es, goodIdxEntry e = true)
    (ht : truncatedIdxTail tail = true) :
    parse_idx_file (encodeIdx es ++ tail) =
      .ok (es.map (fun e => (decodeWord e.1, e.2.1, e.2.2))) :=
  parseIdxAux_encode es tail hes ht _ le_rfl

/-- C4 witness: one well-formed record followed by a five-byte truncated
tail (a NUL with only three bytes after it). -/
theorem c4_truncated_prefix_witness :
    truncatedIdxTail [98, 0, 1, 2, 3] = true ∧
    parse_idx_file (encodeIdx [([97], 3, 4)] ++ [98, 0, 1, 2, 3]) =
      .ok ([([97], 3, 4)].map (fun e => (decodeWord e.1, e.2.1, e.2.2))) :=
  ⟨by decide,
   c4_truncated_prefix [([97], 3, 4)] [98, 0, 1, 2, 3] (by decide) (by decide)⟩

/-! ## Claim C6 -/

/-- Growing the store can only grow the existing_words set. -/
theorem existingWords_mono (store0 : Store) (more : List GlossaryEntry)
    (entries : List GlossaryEntry) (w : PyStr)
    (h : w ∈ existingWords store0 entries) :
    w ∈ existingWords ⟨store0.rows ++ more⟩ entries := by
  rcases List.mem_append.mp h with h | h
  · apply List.mem_append_left
    obtain ⟨g, hg, h1, h2⟩ := (mem_storeMatchesDev store0 _ _).mp h
    exact (mem_storeMatchesDev ⟨store0.rows ++ more⟩ _ _).mpr
      ⟨g, List.mem_append_left _ hg, h1, h2⟩
  · apply List.mem_append_right
    obtain ⟨g, hg, h1, h2⟩ := (mem_storeMatchesIast store0 _ _).mp h
    exact (mem_storeMatchesIast ⟨store0.rows ++ more⟩ _ _).mpr
      ⟨g, List.mem_append_left _ hg, h1, h2⟩

/-- When no insert fails, the batch loop commits every chunk: the store
grows by exactly the processed list, everything is counted imported and
nothing failed. -/
theorem batchLoop_noFail (n : Nat) (hn : 1 ≤ n) :
    ∀ (fuel : Nat) (l : List GlossaryEntry), l.length ≤ fuel →
      ∀ (batchIdx : Nat) (store : Store) (imported failed : Nat)
        (calls : List (List GlossaryEntry)),
        (batchLoop n (fun _ => false) batchIdx l store imported failed calls
          fuel).store.rows = store.rows ++ l ∧
        (batchLoop n (fun _ => false) batchIdx l store imported failed calls
          fuel).imported = imported + l.length ∧
        (batchLoop n (fun _ => false) batchIdx l store imported failed calls
          fuel).failed = failed := by
  intro fuel
  induction fuel with
  | zero =>
    intro l hl batchIdx store imported failed calls
    have : l = [] := List.eq_nil_of_length_eq_zero (Nat.le_zero.mp hl)
    subst this
    simp [batchLoop]
  | succ f ih =>
    intro l hl batchIdx store imported failed calls
    cases l with
    | nil => simp [batchLoop]
    | cons a t =>
      simp only [batchLoop, Bool.false_eq_true, if_false]
      have hdl : ((a :: t).drop n).length ≤ f := by
        simp only [List.length_cons] at hl
        simp only [List.length_drop, List.length_cons]
        omega
      obtain ⟨r1, r2, r3⟩ := ih _ hdl (batchIdx + 1)
        ⟨store.rows ++ (a :: t).take n⟩ (imported + ((a :: t).take n).length)
        failed (calls ++ [(a :: t).take n])
      refine ⟨?_, ?_, r3⟩
      · rw [r1, List.append_assoc, List.take_append_drop]
      · rw [r2]
        have := List.take_append_drop n (a :: t)
        have hlen : ((a :: t).take n).length + ((a :: t).drop n).length =
            (a :: t).length := by
          rw [← List.length_append, this]
        omega

/-- A second deduplication pass against the store left behind by a fully
successful import of the survivors filters out every processed record:
whatever survived the first pass is now present in the store, and whatever
was dropped by the first pass is dropped again for the same reason. -/
theorem dedup_after_noFail_import (processed : List GlossaryEntry)
    (store0 : Store)
    (hdev : ∀ e ∈ processed, e.word_devanagari ≠ []) :
    deduplicate_entries processed
      (storeDB ⟨store0.rows ++ deduplicate_entries processed (storeDB store0)⟩) =
      [] := by
  rw [dedup_storeDB]
  apply List.filter_eq_nil_iff.mpr
  intro e he
  simp only [decide_eq_true_eq, not_and_or, not_not]
  by_cases hkeep : e ∈ deduplicate_entries processed (storeDB store0)
  · left
    apply List.mem_append_left
    rw [mem_storeMatchesDev]
    exact ⟨e, List.mem_append_right _ hkeep, rfl,
      (mem_devCands processed _).mpr ⟨e, he, rfl, hdev e he⟩⟩
  · rw [dedup_storeDB] at hkeep
    have hp : ¬(decide (e.word_devanagari ∉ existingWords store0 processed ∧
        e.word_iast ∉ existingWords store0 processed) = true) :=
      fun hp => hkeep (List.mem_filter.mpr ⟨he, hp⟩)
    simp only [decide_eq_true_eq, not_and_or, not_not] at hp
    rcases hp with hp | hp
    · exact Or.inl (existingWords_mono store0 _ processed _ hp)
    · exact Or.inr (existingWords_mono store0 _ processed _ hp)

/-- C6 (counterexample): importing the single-entry veda archive twice into
an initially empty store with deduplicate=true gives imported_entries = 1 on
the first run but processed_entries = 0 — not 1 — on the second run,
because the summary's processed_entries field reports the
post-deduplication count and the second deduplication removes everything. -/
theorem c6_counterexample :
    (import_stardict_dictionary sampleIfoLines sampleIdx1 sampleDict1
        (pl "sanskrit") (pl "imported") 100 true true ⟨[]⟩
        (fun _ => false)).map (fun p => p.1.imported_entries) = .ok 1 ∧
    ((import_stardict_dictionary sampleIfoLines sampleIdx1 sampleDict1
        (pl "sanskrit") (pl "imported") 100 true true ⟨[]⟩
        (fun _ => false)).bind (fun p =>
      (import_stardict_dictionary sampleIfoLines sampleIdx1 sampleDict1
          (pl "sanskrit") (pl "imported") 100 true true p.2
          (fun _ => false)).map (fun q => q.1.processed_entries))) = .ok 0 ∧
    (1 : Nat) ≠ 0 := by
  decide

/-- C6 (amended): importing the same archive twice into the same store with
deduplicate=true, with every first-run insert committing, yields
imported_entries = 0 on the second run; but the second run's
processed_entries is 0 as well (the summary reports the post-deduplication
count), not the first run's imported_entries. -/
theorem c6_second_run (ifoLines : List PyStr) (idxData dictData : List Nat)
    (language context : PyStr) (batchSize : Nat) (validateEntries : Bool)
    (store0 st1 st2 : Store) (s1 s2 : ImportSummary)
    (hbs : 1 ≤ batchSize)
    (h1 : import_stardict_dictionary ifoLines idxData dictData language
      context batchSize validateEntries true store0 (fun _ => false) =
      .ok (s1, st1))
    (h2 : import_stardict_dictionary ifoLines idxData dictData language
      context batchSize validateEntries true st1 (fun _ => false) =
      .ok (s2, st2)) :
    s2.imported_entries = 0 ∧ s2.processed_entries = 0 := by
  simp only [import_stardict_dictionary] at h1 h2
  cases hifo : parse_ifo_core ifoLines with
  | error e => simp [hifo] at h1
  | ok info =>
  simp only [hifo] at h1 h2
  cases hidx : parse_idx_file idxData with
  | error e => simp [hidx] at h1
  | ok index =>
  simp only [hidx] at h1 h2
  cases hex : extract_definitions info index dictData with
  | error e => simp [hex] at h1
  | ok entries =>
  simp only [hex] at h1 h2
  by_cases hne : entries = []
  · simp [hne] at h1
  · have hbz : ¬batchSize = 0 := by omega
    simp only [if_neg hne, if_neg hbz, if_true, Except.ok.injEq,
      Prod.mk.injEq] at h1 h2
    obtain ⟨hs1, hst1⟩ := h1
    obtain ⟨hs2, hst2⟩ := h2
    set P := entries.filterMap
      (fun e => process_entry_for_import e context validateEntries) with hP
    have hdev : ∀ e ∈ P, e.word_devanagari ≠ [] := by
      intro e he
      obtain ⟨src, _, hsrc⟩ := List.mem_filterMap.mp he
      obtain ⟨hw, hwne, -, -⟩ := process_fields src context validateEntries e hsrc
      rw [hw]
      exact hwne
    have hrows : st1.rows =
        store0.rows ++ deduplicate_entries P (storeDB store0) := by
      rw [← hst1]
      exact (batchLoop_noFail batchSize hbs _ _ le_rfl 0 store0 0 0 []).1
    have hst1eq : st1 = ⟨store0.rows ++ deduplicate_entries P (storeDB store0)⟩ := by
      cases st1
      simpa using hrows
    have hU2 : deduplicate_entries P (storeDB st1) = [] := by
      rw [hst1eq]
      exact dedup_after_noFail_import P store0 hdev
    rw [hU2] at hs2
    rw [← hs2]
    exact ⟨rfl, rfl⟩

/-- C6 witness: the amended theorem applied to the single-entry veda
archive imported twice, starting from the empty store. -/
theorem c6_second_run_witness :
    ({ dictionary_name := pl "Test", total_entries := 1, processed_entries := 0,
       imported_entries := 0, skipped_entries := 0, failed_entries := 0,
       language := pl "sanskrit", context := pl "imported",
       dictionary_info := sampleInfo } : ImportSummary).imported_entries = 0 ∧
    ({ dictionary_name := pl "Test", total_entries := 1, processed_entries := 0,
       imported_entries := 0, skipped_entries := 0, failed_entries := 0,
       language := pl "sanskrit", context := pl "imported",
       dictionary_info := sampleInfo } : ImportSummary).processed_entries = 0 :=
  c6_second_run sampleIfoLines sampleIdx1 sampleDict1 (pl "sanskrit")
    (pl "imported") 100 true ⟨[]⟩ ⟨[sampleVedaEntry]⟩ ⟨[sampleVedaEntry]⟩
    { dictionary_name := pl "Test", total_entries := 1, processed_entries := 1,
      imported_entries := 1, skipped_entries := 0, failed_entries := 0,
      language := pl "sanskrit", context := pl "imported",
      dictionary_info := sampleInfo }
    { dictionary_name := pl "Test", total_entries := 1, processed_entries := 0,
      imported_entries := 0, skipped_entries := 0, failed_entries := 0,
      language := pl "sanskrit", context := pl "imported",
      dictionary_info := sampleInfo }
    (by decide) (by decide) (by decide)

end StarDict
